import Mathlib

/-!
Shallow embedding of the `variance_thresholding` helper from
`Linear Regression/Regularisation and Data_scaling.ipynb` together with the
behaviour of the two scikit-learn primitives it delegates to
(`MinMaxScaler.fit_transform` and `VarianceThreshold.fit_transform`).

A pandas `DataFrame` is modelled column-orientedly: an ordered list of named
columns of rational values (floats are modelled exactly as rationals).

The embedded semantics of the library calls, in the order the source
executes them:
* `df_encoded.drop(columns=['Yield'])` raises a `KeyError` when no column is
  named `Yield`, otherwise removes every column of that name.
* `MinMaxScaler().fit_transform(X)` first validates the array (at least one
  sample, then at least one feature), then rescales each column by
  `(x - min) / (max - min)`, where a zero range `max - min` is replaced by `1`
  (scikit-learn's `_handle_zeros_in_scale`), so a constant column maps to `0`.
* `VarianceThreshold(threshold).fit_transform(df_scaled)` validates
  `threshold ∈ [0, ∞)` at fit time, computes the population variances
  (`np.nanvar`, `ddof = 0`); when `threshold = 0` each variance is replaced by
  `min(variance, peak-to-peak)` (the precision guard in
  `VarianceThreshold.fit`); it raises `ValueError` ("No feature in X meets the
  variance threshold") when every adjusted variance is `≤ threshold`, and the
  support mask keeps exactly the columns with adjusted variance strictly
  greater than `threshold` (`_get_support_mask`).
* finally the function returns the pair `(df_filtered, df_scaled)`.
-/

deriving instance DecidableEq for Except

namespace VarSel

/-- A named column of rational values (one pandas `Series`). -/
structure Column where
  name : String
  values : List ℚ
deriving Repr, DecidableEq

/-- A labelled table: an ordered list of named columns (one pandas `DataFrame`). -/
structure Table where
  cols : List Column
deriving Repr, DecidableEq

/-- The number of rows of a table, read off its first column (a rectangular
pandas frame has this row count in every column). -/
def Table.nrows (t : Table) : ℕ :=
  match t.cols with
  | [] => 0
  | c :: _ => c.values.length

/-- Rectangularity: every column has exactly `n` values.  Every pandas
`DataFrame` satisfies this by construction. -/
def Table.rectangular (t : Table) (n : ℕ) : Prop :=
  ∀ c ∈ t.cols, c.values.length = n

instance (t : Table) (n : ℕ) : Decidable (t.rectangular n) :=
  inferInstanceAs (Decidable (∀ c ∈ t.cols, c.values.length = n))

/-- Whether some column bears the given name (`nm in df.columns`). -/
def hasColumn (t : Table) (nm : String) : Bool :=
  t.cols.any (fun c => c.name == nm)

/-- `df.drop(columns=[nm])`: remove every column named `nm` (the caller is
responsible for the `KeyError` when the name is absent). -/
def dropColumn (t : Table) (nm : String) : Table :=
  ⟨t.cols.filter (fun c => c.name != nm)⟩

/-- The minimum of a column's values (`data_min_` of `MinMaxScaler`);
`0` for an empty column, which the scaler never sees. -/
def colMin : List ℚ → ℚ
  | [] => 0
  | x :: xs => xs.foldl min x

/-- The maximum of a column's values (`data_max_` of `MinMaxScaler`). -/
def colMax : List ℚ → ℚ
  | [] => 0
  | x :: xs => xs.foldl max x

/-- One column of `MinMaxScaler.fit_transform`: rescale by
`(x - min) / (max - min)`, with a zero range replaced by `1` as in
scikit-learn's `_handle_zeros_in_scale` (so constant columns map to `0`). -/
def scaleColumn (c : Column) : Column :=
  let mn := colMin c.values
  let mx := colMax c.values
  let d := if mx - mn = 0 then 1 else mx - mn
  ⟨c.name, c.values.map (fun x => (x - mn) / d)⟩

/-- Arithmetic mean of a list (`0` on the empty list, by `0 / 0 = 0` in `ℚ`). -/
def mean (xs : List ℚ) : ℚ := xs.sum / xs.length

/-- Population variance (`np.nanvar` with `ddof = 0`): mean squared deviation
from the mean. -/
def popVar (xs : List ℚ) : ℚ :=
  (xs.map (fun x => (x - mean xs) ^ 2)).sum / xs.length

/-- Peak-to-peak (`np.ptp`): maximum minus minimum. -/
def colPtp (xs : List ℚ) : ℚ := colMax xs - colMin xs

/-- The adjusted variance `VarianceThreshold.fit` stores in `variances_`:
for `threshold = 0` the variance is replaced by `min(variance, ptp)` to avoid
keeping constant columns through floating-point noise. -/
def effVariance (t : ℚ) (c : Column) : ℚ :=
  if t = 0 then min (popVar c.values) (colPtp c.values) else popVar c.values

/-- The distinct failure modes of `variance_thresholding`, one per raise site
in the executed library code, in program order. -/
inductive DataError where
  /-- `KeyError` from `df.drop(columns=['Yield'])` when the name is absent. -/
  | missingColumn : String → DataError
  /-- `ValueError` from `check_array`: found array with 0 samples. -/
  | noSamples : DataError
  /-- `ValueError` from `check_array`: found array with 0 features. -/
  | noFeatures : DataError
  /-- `InvalidParameterError`: `threshold` must be in `[0, ∞)`. -/
  | invalidThreshold : DataError
  /-- `ValueError`: no feature in X meets the variance threshold. -/
  | noFeatureMeetsThreshold : DataError
deriving Repr, DecidableEq

/-- The intermediate `df_scaled`: every feature column (the input minus
`Yield`) rescaled by `MinMaxScaler`. -/
def df_scaled (df_encoded : Table) : Table :=
  ⟨((dropColumn df_encoded "Yield").cols.map scaleColumn)⟩

/-- The result `df_filtered`: the columns of `df_scaled` whose adjusted
variance strictly exceeds the threshold (`selector.get_support`). -/
def df_filtered (df_encoded : Table) (threshold_value : ℚ) : Table :=
  ⟨(df_scaled df_encoded).cols.filter
    (fun c => decide (threshold_value < effVariance threshold_value c))⟩

/-- The helper function of the notebook.  Failure modes appear in the order
the source hits them: the `Yield` drop, then `MinMaxScaler`'s array checks
(samples before features), then `VarianceThreshold.fit`'s parameter
validation, then its all-features-removed check. -/
def variance_thresholding (df_encoded : Table) (threshold_value : ℚ) :
    Except DataError (Table × Table) :=
  if hasColumn df_encoded "Yield" = false then .error (.missingColumn "Yield")
  else if df_encoded.nrows = 0 then .error .noSamples
  else if (dropColumn df_encoded "Yield").cols = [] then .error .noFeatures
  else if threshold_value < 0 then .error .invalidThreshold
  else if ∀ c ∈ (df_scaled df_encoded).cols,
      effVariance threshold_value c ≤ threshold_value then
    .error .noFeatureMeetsThreshold
  else .ok (df_filtered df_encoded threshold_value, df_scaled df_encoded)

/-- A three-row table in the shape of the spec's worked example, with the
`Yield` target the notebook's function insists on: features `A = [0,5,10]`
(non-constant) and `B = [1,1,1]` (constant). -/
def tabAB : Table :=
  ⟨[⟨"Yield", [1, 2, 3]⟩, ⟨"A", [0, 5, 10]⟩, ⟨"B", [1, 1, 1]⟩]⟩

/-- A rectangular table with zero rows that does contain a `Yield` column. -/
def tabZeroRows : Table := ⟨[⟨"Yield", []⟩, ⟨"A", []⟩]⟩

/-- A table without a `Yield` column (and with zero rows). -/
def tabNoYield : Table := ⟨[⟨"A", []⟩]⟩

/-- A one-row table whose only feature column is constant by force of having a
single sample, so no feature can meet any threshold `≥ 0`. -/
def tabOneRow : Table := ⟨[⟨"Yield", [7]⟩, ⟨"A", [4]⟩]⟩

section MinMaxLemmas

theorem foldl_min_le_init (xs : List ℚ) (a : ℚ) : xs.foldl min a ≤ a := by
  induction xs generalizing a with
  | nil => exact le_refl a
  | cons x xs ih => exact le_trans (ih (min a x)) (min_le_left a x)

theorem foldl_min_le_mem (xs : List ℚ) (a x : ℚ) (hx : x ∈ xs) : xs.foldl min a ≤ x := by
  induction xs generalizing a with
  | nil => cases hx
  | cons y ys ih =>
    rcases List.mem_cons.1 hx with h | h
    · subst h
      exact le_trans (foldl_min_le_init ys (min a x)) (min_le_right a x)
    · exact ih (min a y) h

theorem foldl_min_eq_or_mem (xs : List ℚ) (a : ℚ) :
    xs.foldl min a = a ∨ xs.foldl min a ∈ xs := by
  induction xs generalizing a with
  | nil => exact Or.inl rfl
  | cons y ys ih =>
    rw [List.foldl_cons]
    rcases ih (min a y) with h | h
    · rcases le_total a y with hay | hya
      · exact Or.inl (by rw [h, min_eq_left hay])
      · exact Or.inr (by rw [h, min_eq_right hya]; exact List.mem_cons_self y ys)
    · exact Or.inr (List.mem_cons_of_mem y h)

theorem le_foldl_max_init (xs : List ℚ) (a : ℚ) : a ≤ xs.foldl max a := by
  induction xs generalizing a with
  | nil => exact le_refl a
  | cons x xs ih => exact le_trans (le_max_left a x) (ih (max a x))

theorem le_foldl_max_mem (xs : List ℚ) (a x : ℚ) (hx : x ∈ xs) : x ≤ xs.foldl max a := by
  induction xs generalizing a with
  | nil => cases hx
  | cons y ys ih =>
    rcases List.mem_cons.1 hx with h | h
    · subst h
      exact le_trans (le_max_right a x) (le_foldl_max_init ys (max a x))
    · exact ih (max a y) h

theorem foldl_max_eq_or_mem (xs : List ℚ) (a : ℚ) :
    xs.foldl max a = a ∨ xs.foldl max a ∈ xs := by
  induction xs generalizing a with
  | nil => exact Or.inl rfl
  | cons y ys ih =>
    rw [List.foldl_cons]
    rcases ih (max a y) with h | h
    · rcases le_total a y with hay | hya
      · exact Or.inr (by rw [h, max_eq_right hay]; exact List.mem_cons_self y ys)
      · exact Or.inl (by rw [h, max_eq_left hya])
    · exact Or.inr (List.mem_cons_of_mem y h)

theorem colMin_le (xs : List ℚ) (x : ℚ) (hx : x ∈ xs) : colMin xs ≤ x := by
  match xs, hx with
  | y :: ys, hx =>
    rcases List.mem_cons.1 hx with h | h
    · subst h; exact foldl_min_le_init ys x
    · exact foldl_min_le_mem ys y x h

theorem le_colMax (xs : List ℚ) (x : ℚ) (hx : x ∈ xs) : x ≤ colMax xs := by
  match xs, hx with
  | y :: ys, hx =>
    rcases List.mem_cons.1 hx with h | h
    · subst h; exact le_foldl_max_init ys x
    · exact le_foldl_max_mem ys y x h

theorem colMin_mem (xs : List ℚ) (h : xs ≠ []) : colMin xs ∈ xs := by
  match xs, h with
  | y :: ys, _ =>
    rcases foldl_min_eq_or_mem ys y with h' | h'
    · rw [colMin, h']; exact List.mem_cons_self y ys
    · exact List.mem_cons_of_mem y h'

theorem colMax_mem (xs : List ℚ) (h : xs ≠ []) : colMax xs ∈ xs := by
  match xs, h with
  | y :: ys, _ =>
    rcases foldl_max_eq_or_mem ys y with h' | h'
    · rw [colMax, h']; exact List.mem_cons_self y ys
    · exact List.mem_cons_of_mem y h'

theorem colMin_le_colMax (xs : List ℚ) (h : xs ≠ []) : colMin xs ≤ colMax xs := by
  match xs, h with
  | y :: ys, _ =>
    exact le_trans (colMin_le (y :: ys) y (List.mem_cons_self y ys))
      (le_colMax (y :: ys) y (List.mem_cons_self y ys))

end MinMaxLemmas

section VarianceLemmas

theorem sum_of_all_eq (xs : List ℚ) (a : ℚ) (h : ∀ x ∈ xs, x = a) :
    xs.sum = xs.length * a := by
  induction xs with
  | nil => simp
  | cons y ys ih =>
    have hy : y = a := h y (List.mem_cons_self y ys)
    have hs : ys.sum = ys.length * a := ih (fun x hx => h x (List.mem_cons_of_mem y hx))
    rw [List.sum_cons, hy, hs, List.length_cons]
    push_cast
    ring

theorem mean_of_all_eq (xs : List ℚ) (a : ℚ) (hne : xs ≠ []) (h : ∀ x ∈ xs, x = a) :
    mean xs = a := by
  have hl : (xs.length : ℚ) ≠ 0 := by
    have hn : xs.length ≠ 0 := fun hz => hne (List.length_eq_zero.mp hz)
    exact_mod_cast hn
  rw [mean, sum_of_all_eq xs a h, mul_comm, mul_div_assoc, div_self hl, mul_one]

theorem popVar_of_all_eq (xs : List ℚ) (a : ℚ) (h : ∀ x ∈ xs, x = a) :
    popVar xs = 0 := by
  rcases eq_or_ne xs [] with hnil | hne
  · subst hnil; simp [popVar, mean]
  · have hm : mean xs = a := mean_of_all_eq xs a hne h
    have hz : (xs.map fun x => (x - mean xs) ^ 2).sum = 0 := by
      apply List.sum_eq_zero
      intro y hy
      rcases List.mem_map.1 hy with ⟨x, hx, rfl⟩
      rw [h x hx, hm]
      ring
    rw [popVar, hz, zero_div]

theorem popVar_eq_zero_of_ptp_eq_zero (xs : List ℚ) (h : colPtp xs = 0) :
    popVar xs = 0 := by
  have hmx : colMax xs = colMin xs := by
    rw [colPtp] at h
    exact sub_eq_zero.mp h
  apply popVar_of_all_eq xs (colMin xs)
  intro x hx
  have h1 := colMin_le xs x hx
  have h2 := le_colMax xs x hx
  rw [hmx] at h2
  linarith

/-- The strict retention test on the adjusted variance agrees with the strict
test on the plain population variance, for any nonempty column and any
admissible threshold: the `min(variance, ptp)` guard at `threshold = 0` never
changes which columns are selected over exact arithmetic. -/
theorem effVariance_lt_iff (t : ℚ) (c : Column) (hne : c.values ≠ []) :
    t < effVariance t c ↔ t < popVar c.values := by
  rw [effVariance]
  split_ifs with h0
  · subst h0
    constructor
    · intro h; exact lt_of_lt_of_le h (min_le_left _ _)
    · intro h
      rw [lt_min_iff]
      refine ⟨h, ?_⟩
      by_contra hc
      push_neg at hc
      have hge : 0 ≤ colPtp c.values := sub_nonneg.2 (colMin_le_colMax _ hne)
      have hptp : colPtp c.values = 0 := le_antisymm hc hge
      have hv := popVar_eq_zero_of_ptp_eq_zero _ hptp
      rw [hv] at h
      exact lt_irrefl 0 h
  · exact Iff.rfl

end VarianceLemmas

section Characterization

/-- `variance_thresholding` succeeds exactly when the table has a `Yield`
column, at least one row, at least one feature column, a non-negative
threshold, and some scaled column passing the strict variance test; the
results are then `df_filtered` and `df_scaled`, in that order. -/
theorem vt_ok_iff (df : Table) (t : ℚ) (f s : Table) :
    variance_thresholding df t = .ok (f, s) ↔
      hasColumn df "Yield" = true ∧ df.nrows ≠ 0 ∧
      (dropColumn df "Yield").cols ≠ [] ∧ 0 ≤ t ∧
      (∃ c ∈ (df_scaled df).cols, t < effVariance t c) ∧
      f = df_filtered df t ∧ s = df_scaled df := by
  unfold variance_thresholding
  split_ifs with h1 h2 h3 h4 h5
  · simp [h1]
  · simp [h2]
  · simp [h3]
  · constructor
    · intro h; simp at h
    · rintro ⟨-, -, -, ht, -, -, -⟩
      exact absurd h4 (not_lt.mpr ht)
  · constructor
    · intro h; simp at h
    · rintro ⟨-, -, -, -, ⟨c, hc, hlt⟩, -, -⟩
      exact absurd (h5 c hc) (not_le.mpr hlt)
  · have h1' : hasColumn df "Yield" = true := by
      revert h1
      cases hasColumn df "Yield" <;> simp
    have h4' : (0 : ℚ) ≤ t := not_lt.mp h4
    have h5' : ∃ c ∈ (df_scaled df).cols, t < effVariance t c := by
      push_neg at h5
      exact h5
    simp only [Except.ok.injEq, Prod.mk.injEq]
    constructor
    · rintro ⟨hf, hs⟩
      exact ⟨h1', h2, h3, h4', h5', hf.symm, hs.symm⟩
    · rintro ⟨-, -, -, -, -, hf, hs⟩
      exact ⟨hf.symm, hs.symm⟩

/-- When the input table lacks a `Yield` column, the `drop` raises first. -/
theorem vt_missing_yield (df : Table) (t : ℚ) (h : hasColumn df "Yield" = false) :
    variance_thresholding df t = .error (.missingColumn "Yield") := by
  unfold variance_thresholding
  rw [if_pos h]

/-- With a `Yield` column present and zero rows, `MinMaxScaler`'s array check
fails with the zero-samples error, before any threshold validation. -/
theorem vt_zero_rows (df : Table) (t : ℚ) (h1 : hasColumn df "Yield" = true)
    (h0 : df.nrows = 0) :
    variance_thresholding df t = .error .noSamples := by
  unfold variance_thresholding
  rw [if_neg (by simp [h1]), if_pos h0]

/-- On a table passing the `Yield` and array checks, a negative threshold is
rejected by `VarianceThreshold`'s parameter validation. -/
theorem vt_neg_threshold (df : Table) (t : ℚ) (h1 : hasColumn df "Yield" = true)
    (h2 : df.nrows ≠ 0) (h3 : (dropColumn df "Yield").cols ≠ []) (h4 : t < 0) :
    variance_thresholding df t = .error .invalidThreshold := by
  unfold variance_thresholding
  rw [if_neg (by simp [h1]), if_neg h2, if_neg h3, if_pos h4]

/-- Columns of the scaled table have nonempty value lists as soon as the
input is rectangular with at least one row. -/
theorem df_scaled_col_values_ne_nil (df : Table) (n : ℕ) (hrect : df.rectangular n)
    (hn : df.nrows ≠ 0) (c : Column) (hc : c ∈ (df_scaled df).cols) :
    c.values ≠ [] := by
  rcases List.mem_map.1 hc with ⟨c0, hc0, rfl⟩
  have hc0' : c0 ∈ df.cols := List.mem_of_mem_filter hc0
  have hlen : c0.values.length = n := hrect c0 hc0'
  have hnpos : n ≠ 0 := by
    intro hn0
    apply hn
    rcases hcols : df.cols with _ | ⟨c1, rest⟩
    · exact absurd (hcols ▸ hc0') (List.not_mem_nil c0)
    · have hmem : c1 ∈ df.cols := by rw [hcols]; exact List.mem_cons_self _ _
      have h1 : df.nrows = c1.values.length := by rw [Table.nrows, hcols]
      rw [h1, hrect c1 hmem, hn0]
  intro hnil
  have hv : c0.values = [] := by simpa [scaleColumn] using hnil
  exact hnpos (by rw [← hlen, hv]; rfl)

/-- The filtered columns are exactly the scaled columns whose population
variance strictly exceeds the threshold (over exact arithmetic the
`threshold = 0` peak-to-peak guard changes nothing). -/
theorem df_filtered_eq_filter_popVar (df : Table) (t : ℚ) (n : ℕ)
    (hrect : df.rectangular n) (hn : df.nrows ≠ 0) :
    (df_filtered df t).cols =
      (df_scaled df).cols.filter (fun c => decide (t < popVar c.values)) := by
  rw [df_filtered]
  apply List.filter_congr
  intro c hc
  have hne := df_scaled_col_values_ne_nil df n hrect hn c hc
  simp only [decide_eq_decide]
  exact effVariance_lt_iff t c hne

end Characterization

section ConcreteEvaluations

/-- The scaled form of `tabAB`: `A` rescaled onto `[0,1]`, `B` collapsed to
zero by the constant-column fallback. -/
def tabABScaled : Table := ⟨[⟨"A", [0, 1/2, 1]⟩, ⟨"B", [0, 0, 0]⟩]⟩

/-- The filtered form of `tabAB` at any threshold below `1/6`: only `A`. -/
def tabABFiltered : Table := ⟨[⟨"A", [0, 1/2, 1]⟩]⟩

/-- A table with no `Yield` column and two rows, for exercising the
`KeyError` path. -/
def tabXY : Table := ⟨[⟨"X", [1, 2]⟩]⟩

theorem df_scaled_tabAB : df_scaled tabAB = tabABScaled := by
  simp +decide [df_scaled, tabAB, tabABScaled, dropColumn, List.filter, scaleColumn,
    colMin, colMax]
  norm_num

theorem df_filtered_tabAB_zero : df_filtered tabAB 0 = tabABFiltered := by
  rw [df_filtered, df_scaled_tabAB]
  norm_num [tabABScaled, tabABFiltered, List.filter, effVariance, popVar, mean,
    colPtp, colMax, colMin]

theorem df_filtered_tabAB_centi : df_filtered tabAB (1/100) = tabABFiltered := by
  rw [df_filtered, df_scaled_tabAB]
  norm_num [tabABScaled, tabABFiltered, List.filter, effVariance, popVar, mean,
    colPtp, colMax, colMin]

theorem vt_tabAB_zero :
    variance_thresholding tabAB 0 = .ok (tabABFiltered, tabABScaled) := by
  rw [vt_ok_iff]
  refine ⟨by decide, by decide, by decide, le_refl 0, ?_,
    df_filtered_tabAB_zero.symm, df_scaled_tabAB.symm⟩
  refine ⟨⟨"A", [0, 1/2, 1]⟩, ?_, ?_⟩
  · rw [df_scaled_tabAB]
    exact List.mem_cons_self _ _
  · norm_num [effVariance, popVar, mean, colPtp, colMax, colMin]

theorem vt_tabAB_centi :
    variance_thresholding tabAB (1/100) = .ok (tabABFiltered, tabABScaled) := by
  rw [vt_ok_iff]
  refine ⟨by decide, by decide, by decide, by norm_num, ?_,
    df_filtered_tabAB_centi.symm, df_scaled_tabAB.symm⟩
  refine ⟨⟨"A", [0, 1/2, 1]⟩, ?_, ?_⟩
  · rw [df_scaled_tabAB]
    exact List.mem_cons_self _ _
  · norm_num [effVariance, popVar, mean, colPtp, colMax, colMin]

theorem df_scaled_tabOneRow : df_scaled tabOneRow = ⟨[⟨"A", [0]⟩]⟩ := by
  simp +decide [df_scaled, tabOneRow, dropColumn, List.filter, scaleColumn,
    colMin, colMax]

/-- On a one-row table every scaled column has zero variance, so
`VarianceThreshold.fit` raises its no-feature error even at threshold `0`. -/
theorem vt_tabOneRow :
    variance_thresholding tabOneRow 0 = .error .noFeatureMeetsThreshold := by
  unfold variance_thresholding
  rw [if_neg (by decide), if_neg (by decide), if_neg (by decide),
    if_neg (by norm_num), if_pos]
  intro c hc
  rw [df_scaled_tabOneRow] at hc
  rcases List.mem_cons.1 hc with h | h
  · subst h
    norm_num [effVariance, popVar, mean, colPtp, colMax, colMin]
  · cases h

end ConcreteEvaluations

section Claims

theorem scaleColumn_length (c : Column) :
    (scaleColumn c).values.length = c.values.length := by
  simp [scaleColumn]

theorem scaleColumn_name (c : Column) : (scaleColumn c).name = c.name := rfl

/-- C1, counterexample: at threshold `0` on `tabAB` the constant column `B`
has variance `0 ≥ 0` yet is dropped — the filtered column set is `{A}`, not
the scaled table's `{A, B}`, refuting both the `var(c) >= t` retention rule
and the claim that `t = 0` retains every column. -/
theorem C1_counterexample :
    variance_thresholding tabAB 0 = .ok (tabABFiltered, tabABScaled) ∧
    tabABFiltered.cols.map Column.name = ["A"] ∧
    tabABScaled.cols.map Column.name = ["A", "B"] :=
  ⟨vt_tabAB_zero, by decide, by decide⟩

/-- C1, amended: for every rectangular input table on which the call
succeeds, the filtered table contains, in original column order, exactly the
scaled columns whose population variance is STRICTLY GREATER than the
threshold; in particular constant (zero-variance) columns are removed even
at threshold `0`. -/
theorem C1_filtered_strict_variance (df : Table) (t : ℚ) (n : ℕ)
    (hrect : df.rectangular n) (f s : Table)
    (hok : variance_thresholding df t = .ok (f, s)) :
    f.cols = s.cols.filter (fun c => decide (t < popVar c.values)) := by
  rcases (vt_ok_iff df t f s).mp hok with ⟨-, hn, -, -, -, hf, hs⟩
  rw [hf, hs, df_filtered]
  exact df_filtered_eq_filter_popVar df t n hrect hn

/-- C1, witness: the amended statement evaluated on `tabAB` at threshold 0. -/
theorem C1_witness :
    tabABFiltered.cols =
      tabABScaled.cols.filter (fun c => decide ((0 : ℚ) < popVar c.values)) :=
  C1_filtered_strict_variance tabAB 0 3 (by decide) tabABFiltered tabABScaled
    vt_tabAB_zero

/-- C2, counterexample: on a zero-row table a negative threshold does NOT
produce the invalid-threshold (`InvalidInput`) error — the scaler's
zero-samples check fires first, so the claim's "regardless of the table's
contents" fails. -/
theorem C2_counterexample :
    variance_thresholding tabZeroRows (-1) = .error .noSamples ∧
    DataError.noSamples ≠ DataError.invalidThreshold :=
  ⟨vt_zero_rows tabZeroRows (-1) (by decide) (by decide), by decide⟩

/-- C2, amended: with a negative threshold the call never returns a pair of
tables; the error is the invalid-threshold (`InvalidInput`) one exactly when
the table passes the checks that run earlier (`Yield` present, at least one
row, at least one feature column). -/
theorem C2_neg_threshold (df : Table) (t : ℚ) (ht : t < 0) :
    (∀ p : Table × Table, variance_thresholding df t ≠ .ok p) ∧
    (hasColumn df "Yield" = true → df.nrows ≠ 0 →
      (dropColumn df "Yield").cols ≠ [] →
      variance_thresholding df t = .error .invalidThreshold) := by
  constructor
  · rintro ⟨f, s⟩ hok
    rcases (vt_ok_iff df t f s).mp hok with ⟨-, -, -, ht', -, -, -⟩
    exact absurd ht (not_lt.mpr ht')
  · intro h1 h2 h3
    exact vt_neg_threshold df t h1 h2 h3 ht

/-- C2, witness: the amended statement evaluated at `tabAB`, threshold −1. -/
theorem C2_witness :
    variance_thresholding tabAB (-1) = .error .invalidThreshold :=
  (C2_neg_threshold tabAB (-1) (by norm_num)).2 (by decide) (by decide) (by decide)

/-- C3, counterexample: the pair returned on `tabAB` has the FILTERED table
(one column) first and the scaled table (two columns) second, refuting the
claim that the first component is the fully scaled table. -/
theorem C3_counterexample :
    (variance_thresholding tabAB 0).map
        (fun p => (p.1.cols.map Column.name, p.2.cols.map Column.name)) =
      .ok (["A"], ["A", "B"]) ∧ (["A"] : List String) ≠ ["A", "B"] := by
  refine ⟨?_, by decide⟩
  rw [vt_tabAB_zero]
  rfl

/-- C3, amended: a successful call returns the pair
`(df_filtered, df_scaled)` — filtered FIRST, scaled second; the scaled table
consists of all feature columns (the input minus `Yield`) scaled
column-by-column in place, and both returned tables keep the input's row
count (and, each column being a positional map of an input column, its row
order). -/
theorem C3_return_pair (df : Table) (t : ℚ) (n : ℕ) (hrect : df.rectangular n)
    (f s : Table) (hok : variance_thresholding df t = .ok (f, s)) :
    f = df_filtered df t ∧ s = df_scaled df ∧
    s.cols = (dropColumn df "Yield").cols.map scaleColumn ∧
    s.rectangular n ∧ f.rectangular n := by
  rcases (vt_ok_iff df t f s).mp hok with ⟨-, -, -, -, -, hf, hs⟩
  have hscols : s.cols = (dropColumn df "Yield").cols.map scaleColumn := by
    rw [hs, df_scaled]
  have hsrect : s.rectangular n := by
    intro c hc
    rw [hscols] at hc
    rcases List.mem_map.1 hc with ⟨c0, hc0, rfl⟩
    rw [scaleColumn_length]
    exact hrect c0 (List.mem_of_mem_filter hc0)
  refine ⟨hf, hs, hscols, hsrect, ?_⟩
  intro c hc
  apply hsrect
  rw [hf, df_filtered] at hc
  rw [hs]
  exact List.mem_of_mem_filter hc

/-- C3, witness: the amended statement evaluated on `tabAB` at threshold 0. -/
theorem C3_witness :
    tabABFiltered = df_filtered tabAB 0 ∧ tabABScaled = df_scaled tabAB ∧
    tabABScaled.cols = (dropColumn tabAB "Yield").cols.map scaleColumn ∧
    tabABScaled.rectangular 3 ∧ tabABFiltered.rectangular 3 :=
  C3_return_pair tabAB 0 3 (by decide) tabABFiltered tabABScaled vt_tabAB_zero

/-- C4: the function requires a `Yield` column — without one it fails with
the missing-column (`KeyError`) error — and on success neither the scaled
nor the filtered table contains a column named `Yield`, since the target is
dropped before scaling. -/
theorem C4_requires_yield (df : Table) (t : ℚ) :
    (hasColumn df "Yield" = false →
      variance_thresholding df t = .error (.missingColumn "Yield")) ∧
    (∀ f s, variance_thresholding df t = .ok (f, s) →
      hasColumn df "Yield" = true ∧
      (∀ c ∈ s.cols, c.name ≠ "Yield") ∧ (∀ c ∈ f.cols, c.name ≠ "Yield")) := by
  constructor
  · intro h
    exact vt_missing_yield df t h
  · intro f s hok
    rcases (vt_ok_iff df t f s).mp hok with ⟨hy, -, -, -, -, hf, hs⟩
    have hsname : ∀ c ∈ s.cols, c.name ≠ "Yield" := by
      intro c hc
      rw [hs, df_scaled] at hc
      rcases List.mem_map.1 hc with ⟨c0, hc0, rfl⟩
      rw [scaleColumn_name]
      have := (List.mem_filter.1 hc0).2
      simpa using this
    refine ⟨hy, hsname, ?_⟩
    intro c hc
    apply hsname
    rw [hf, df_filtered] at hc
    rw [hs]
    exact List.mem_of_mem_filter hc

/-- C4, witness: the missing-`Yield` branch evaluated on a table without a
`Yield` column. -/
theorem C4_witness :
    variance_thresholding tabXY 0 = .error (.missingColumn "Yield") :=
  (C4_requires_yield tabXY 0).1 (by decide)

/-- C5: on success the filtered table's columns are a sublist of the scaled
table's columns — same names, same values, same relative order, no renaming,
duplication or reordering — and likewise for the name lists. -/
theorem C5_filtered_sublist (df : Table) (t : ℚ) (f s : Table)
    (hok : variance_thresholding df t = .ok (f, s)) :
    f.cols.Sublist s.cols ∧
    (f.cols.map Column.name).Sublist (s.cols.map Column.name) := by
  rcases (vt_ok_iff df t f s).mp hok with ⟨-, -, -, -, -, hf, hs⟩
  rw [hf, hs, df_filtered]
  exact ⟨List.filter_sublist _, (List.filter_sublist _).map _⟩

/-- C5, witness: the sublist property evaluated on `tabAB` at threshold 0. -/
theorem C5_witness :
    tabABFiltered.cols.Sublist tabABScaled.cols ∧
    (tabABFiltered.cols.map Column.name).Sublist (tabABScaled.cols.map Column.name) :=
  C5_filtered_sublist tabAB 0 tabABFiltered tabABScaled vt_tabAB_zero

/-- C6: selection is antitone in the threshold — whenever both calls
succeed on the same rectangular table with `t1 ≤ t2`, every column filtered
in at `t2` is also filtered in at `t1` (indeed as a sublist, preserving
order). -/
theorem C6_threshold_antitone (df : Table) (t1 t2 : ℚ) (n : ℕ)
    (hrect : df.rectangular n) (h12 : t1 ≤ t2) (f1 s1 f2 s2 : Table)
    (h1 : variance_thresholding df t1 = .ok (f1, s1))
    (h2 : variance_thresholding df t2 = .ok (f2, s2)) :
    f2.cols.Sublist f1.cols ∧ ∀ c ∈ f2.cols, c ∈ f1.cols := by
  rcases (vt_ok_iff df t1 f1 s1).mp h1 with ⟨-, hn, -, -, -, hf1, -⟩
  rcases (vt_ok_iff df t2 f2 s2).mp h2 with ⟨-, -, -, -, -, hf2, -⟩
  have key : f2.cols.Sublist f1.cols := by
    rw [hf1, hf2, df_filtered_eq_filter_popVar df t1 n hrect hn,
      df_filtered_eq_filter_popVar df t2 n hrect hn]
    apply List.monotone_filter_right
    intro c hc
    simp only [decide_eq_true_eq] at hc ⊢
    linarith
  exact ⟨key, fun c hc => key.subset hc⟩

/-- C6, witness: the antitone property evaluated on `tabAB` with thresholds
`0 ≤ 1/100`. -/
theorem C6_witness :
    tabABFiltered.cols.Sublist tabABFiltered.cols ∧
    ∀ c ∈ tabABFiltered.cols, c ∈ tabABFiltered.cols :=
  C6_threshold_antitone tabAB 0 (1/100) 3 (by decide) (by norm_num)
    tabABFiltered tabABScaled tabABFiltered tabABScaled vt_tabAB_zero vt_tabAB_centi

/-- C7: on success, every non-constant feature column `c` appears in the
scaled table as the pointwise map `x ↦ (x − min) / (max − min)`; all its
scaled values lie in `[0, 1]`, and the values `0` and `1` are both
attained. -/
theorem C7_minmax_scaling (df : Table) (t : ℚ) (f s : Table)
    (hok : variance_thresholding df t = .ok (f, s))
    (c : Column) (hc : c ∈ (dropColumn df "Yield").cols)
    (hnc : colMin c.values ≠ colMax c.values) :
    scaleColumn c ∈ s.cols ∧
    (scaleColumn c).values =
      c.values.map
        (fun x => (x - colMin c.values) / (colMax c.values - colMin c.values)) ∧
    (∀ v ∈ (scaleColumn c).values, 0 ≤ v ∧ v ≤ 1) ∧
    (0 : ℚ) ∈ (scaleColumn c).values ∧ (1 : ℚ) ∈ (scaleColumn c).values := by
  rcases (vt_ok_iff df t f s).mp hok with ⟨-, -, -, -, -, -, hs⟩
  have hne : c.values ≠ [] := by
    intro hnil
    apply hnc
    rw [hnil]
    rfl
  have hlt : colMin c.values < colMax c.values :=
    lt_of_le_of_ne (colMin_le_colMax c.values hne) hnc
  have hd : colMax c.values - colMin c.values ≠ 0 :=
    sub_ne_zero.mpr (ne_of_gt hlt)
  have hmap : (scaleColumn c).values =
      c.values.map
        (fun x => (x - colMin c.values) / (colMax c.values - colMin c.values)) := by
    rw [scaleColumn]
    simp only [if_neg hd]
  refine ⟨?_, hmap, ?_, ?_, ?_⟩
  · rw [hs, df_scaled]
    exact List.mem_map_of_mem scaleColumn hc
  · intro v hv
    rw [hmap] at hv
    rcases List.mem_map.1 hv with ⟨x, hx, rfl⟩
    have h1 := colMin_le c.values x hx
    have h2 := le_colMax c.values x hx
    constructor
    · apply div_nonneg (by linarith) (by linarith)
    · rw [div_le_one (by linarith)]
      linarith
  · rw [hmap]
    refine List.mem_map.2 ⟨colMin c.values, colMin_mem c.values hne, ?_⟩
    rw [sub_self, zero_div]
  · rw [hmap]
    refine List.mem_map.2 ⟨colMax c.values, colMax_mem c.values hne, ?_⟩
    rw [div_self hd]

/-- C7, witness: the scaling formula evaluated on column `A` of `tabAB`. -/
theorem C7_witness :
    scaleColumn ⟨"A", [0, 5, 10]⟩ ∈ tabABScaled.cols ∧
    (scaleColumn ⟨"A", [0, 5, 10]⟩).values =
      ([0, 5, 10] : List ℚ).map
        (fun x => (x - colMin [0, 5, 10]) / (colMax [0, 5, 10] - colMin [0, 5, 10])) ∧
    (∀ v ∈ (scaleColumn ⟨"A", [0, 5, 10]⟩).values, 0 ≤ v ∧ v ≤ 1) ∧
    (0 : ℚ) ∈ (scaleColumn ⟨"A", [0, 5, 10]⟩).values ∧
    (1 : ℚ) ∈ (scaleColumn ⟨"A", [0, 5, 10]⟩).values :=
  C7_minmax_scaling tabAB 0 tabABFiltered tabABScaled vt_tabAB_zero
    ⟨"A", [0, 5, 10]⟩ (by decide) (by decide)

/-- C8: scaling a constant column never faults — the zero range is replaced
by `1`, every row maps to the deterministic fallback value `0`, the row
count is preserved, and the column's variance after scaling is `0`. -/
theorem C8_constant_column_safe (c : Column)
    (hconst : colMin c.values = colMax c.values) :
    (∀ v ∈ (scaleColumn c).values, v = 0) ∧
    (scaleColumn c).values.length = c.values.length ∧
    popVar (scaleColumn c).values = 0 := by
  have hd : colMax c.values - colMin c.values = 0 := by
    rw [hconst, sub_self]
  have hall : ∀ v ∈ (scaleColumn c).values, v = 0 := by
    intro v hv
    rw [scaleColumn] at hv
    simp only [if_pos hd] at hv
    rcases List.mem_map.1 hv with ⟨x, hx, rfl⟩
    have h1 := colMin_le c.values x hx
    have h2 := le_colMax c.values x hx
    have hx0 : x = colMin c.values := by
      rw [hconst]
      rw [hconst] at h1
      exact le_antisymm h2 h1
    rw [hx0, sub_self, zero_div]
  exact ⟨hall, scaleColumn_length c, popVar_of_all_eq _ 0 hall⟩

/-- C8, witness: the constant column `B = [1,1,1]` of `tabAB`. -/
theorem C8_witness :
    (∀ v ∈ (scaleColumn ⟨"B", [1, 1, 1]⟩).values, v = 0) ∧
    (scaleColumn ⟨"B", [1, 1, 1]⟩).values.length = ([1, 1, 1] : List ℚ).length ∧
    popVar (scaleColumn ⟨"B", [1, 1, 1]⟩).values = 0 :=
  C8_constant_column_safe ⟨"B", [1, 1, 1]⟩ (by decide)

/-- C9, counterexample: a zero-row table WITHOUT a `Yield` column fails with
the missing-column error, not the `EmptyTable` condition, refuting "for
every input table with zero rows ... fails with an EmptyTable error". -/
theorem C9_counterexample :
    tabNoYield.nrows = 0 ∧
    variance_thresholding tabNoYield 0 = .error (.missingColumn "Yield") ∧
    DataError.missingColumn "Yield" ≠ DataError.noSamples :=
  ⟨by decide, vt_missing_yield tabNoYield 0 (by decide), by decide⟩

/-- C9, amended: a zero-row table never yields a pair of tables; when it
contains a `Yield` column the failure is the zero-samples (`EmptyTable`)
error, while a zero-row table without `Yield` fails with the missing-column
error first. -/
theorem C9_zero_rows (df : Table) (t : ℚ) (h0 : df.nrows = 0) :
    (∀ p : Table × Table, variance_thresholding df t ≠ .ok p) ∧
    (hasColumn df "Yield" = true →
      variance_thresholding df t = .error .noSamples) := by
  constructor
  · rintro ⟨f, s⟩ hok
    rcases (vt_ok_iff df t f s).mp hok with ⟨-, hn, -⟩
    exact hn h0
  · intro h1
    exact vt_zero_rows df t h1 h0

/-- C9, witness: the amended statement evaluated on `tabZeroRows`. -/
theorem C9_witness :
    variance_thresholding tabZeroRows 5 = .error .noSamples :=
  (C9_zero_rows tabZeroRows 5 (by decide)).2 (by decide)

/-- C10: whenever `variance_thresholding` returns a pair, the filtered table
has at least one column — when no scaled column passes the strict variance
test the call fails instead (as it concretely does on the one-row table
`tabOneRow` at threshold 0). -/
theorem C10_filtered_nonempty (df : Table) (t : ℚ) (f s : Table)
    (hok : variance_thresholding df t = .ok (f, s)) :
    f.cols ≠ [] ∧
    variance_thresholding tabOneRow 0 = .error .noFeatureMeetsThreshold := by
  rcases (vt_ok_iff df t f s).mp hok with ⟨-, -, -, -, ⟨c, hc, hlt⟩, hf, -⟩
  refine ⟨?_, vt_tabOneRow⟩
  have hcmem : c ∈ (df_scaled df).cols.filter
      (fun c => decide (t < effVariance t c)) :=
    List.mem_filter.mpr ⟨hc, by simpa using hlt⟩
  rw [hf, df_filtered]
  intro hnil
  simp only at hnil
  rw [hnil] at hcmem
  exact List.not_mem_nil c hcmem

/-- C10, witness: evaluated on `tabAB` at threshold 0. -/
theorem C10_witness :
    tabABFiltered.cols ≠ [] ∧
    variance_thresholding tabOneRow 0 = .error .noFeatureMeetsThreshold :=
  C10_filtered_nonempty tabAB 0 tabABFiltered tabABScaled vt_tabAB_zero

end Claims

end VarSel
